import Mathlib

/-!
Verification development for the SugarCube-2 ModLoader merge-and-patch core
(`src/BeforeSC2/HtmlTagSrcHook.ts`, containing the `HtmlTagSrcHook` class and
the `SC2DataManager` class).

The TypeScript code is shallowly embedded:
* JS `Map<string, V>` becomes an insertion-ordered association list
  (`mapGet` / `mapSet` / `mapHas`), matching `Map.get` / `Map.set` / `Map.has`
  (`Map.set` on an existing key updates the value in place, keeping the
  original insertion position).
* `Array.prototype.sort(cmp)` (stable in JS) becomes a stable insertion sort
  parameterised by the integer comparator (`jsStableSort`).
* may-throw functions become `Except String`-valued functions; a `try`/`catch`
  block becomes a `match` on the `Except` value.
* DOM nodes under the `tw-storydata` root are flat children, modelled by a
  list of `DomNode`s; `checkSC2Data`, which genuinely needs descendant
  queries, uses the recursive `DocElem` tree instead.
-/

/-- JS `Map.get`: first binding of the key, if any. -/
def mapGet {α : Type} (tbl : List (String × α)) (k : String) : Option α :=
  match tbl with
  | [] => none
  | (k1, v) :: rest => if k1 = k then some v else mapGet rest k

/-- JS `Map.has`. -/

def mapHas {α : Type} (tbl : List (String × α)) (k : String) : Bool :=
  (mapGet tbl k).isSome

/-- JS `Map.set`: update an existing key in place (keeping its position),
otherwise append the new binding at the end. -/

def mapSet {α : Type} (tbl : List (String × α)) (k : String) (v : α) :
    List (String × α) :=
  match tbl with
  | [] => [(k, v)]
  | (k1, v1) :: rest =>
    if k1 = k then (k, v) :: rest else (k1, v1) :: mapSet rest k v

/-- Auxiliary: the first list is a prefix of the second (on characters). -/

def charsHavePre : List Char → List Char → Bool
  | [], _ => true
  | _ :: _, [] => false
  | a :: as, b :: bs => a = b && charsHavePre as bs

/-- Auxiliary: the needle occurs as a contiguous run inside the haystack. -/

def charsContain (needle : List Char) : List Char → Bool
  | [] => charsHavePre needle []
  | c :: cs => charsHavePre needle (c :: cs) || charsContain needle cs

/-- Substring test on strings (used to state what a log line does NOT name). -/

def strContains (hay needle : String) : Bool :=
  charsContain needle.data hay.data

/-- Stable insertion used by `jsStableSort`: the new element is placed before
the first element that is not strictly smaller, so equal elements keep the
order in which they appeared. -/

def insertByCmp {α : Type} (cmp : α → α → Int) (x : α) : List α → List α
  | [] => [x]
  | y :: ys => if cmp x y ≤ 0 then x :: y :: ys else y :: insertByCmp cmp x ys

/-- JS `Array.prototype.sort(cmp)` for a consistent comparator: the stable
sort determined by `cmp` (ES2019 and later guarantee stability). -/

def jsStableSort {α : Type} (cmp : α → α → Int) (l : List α) : List α :=
  l.foldr (insertByCmp cmp) []

/-! ## Content record model

`SC2DataInfoCache.ts` is not under `src/`; the record shapes below follow the
spec's data model (`ContentRecord`): script and style entries use
`id/name/content`, passage entries additionally carry `tags/position/size`.
An absent (`undefined`) numeric field is `none`. -/

/-- A script or style file item: `{ id?, name, content }`. -/

structure ContentItem where
  id : Option Int
  name : String
  content : String
deriving DecidableEq, Repr

/-- A passage data item (`PassageDataItem` in the source imports). -/

structure PassageDataItem where
  id : Option Int
  name : String
  content : String
  tags : Option (List String)
  position : Option String
  size : Option String
deriving DecidableEq, Repr

/-- `SC2DataInfo`: one snapshot of scripts, styles and passages from a single
data source. The source wraps each list in a `.items` collection; the lists
are inlined here. -/

structure SC2DataInfo where
  dataSource : String
  styleFileItems : List ContentItem
  scriptFileItems : List ContentItem
  passageDataItems : List PassageDataItem
deriving DecidableEq, Repr

/-- `new SC2DataInfo(log, name)`: a snapshot with empty item lists. -/

def emptySC2DataInfo (name : String) : SC2DataInfo :=
  { dataSource := name
    styleFileItems := []
    scriptFileItems := []
    passageDataItems := [] }

/-! ## The script sort of `makeScriptNode` (source lines 580-599) -/

/-- lodash `isSafeInteger` applied to an optional numeric id: true exactly for
a present integer of magnitude at most `2^53 - 1`.  (`isSafeInteger(undefined)`
is `false`; negative safe integers pass.) -/

def isSafeInteger : Option Int → Bool
  | some n => n.natAbs ≤ 9007199254740991
  | none => false

/-- The comparator literally passed to `sc.scriptFileItems.items.sort` in
`makeScriptNode`: numeric compare when both ids are safe integers, a
safe-integer id sorts before a missing one, two missing ids compare equal. -/

def scriptItemCmp (a b : ContentItem) : Int :=
  if isSafeInteger a.id && isSafeInteger b.id then
    match a.id, b.id with
    | some x, some y => if x < y then -1 else if x = y then 0 else 1
    | _, _ => 0
  else if isSafeInteger a.id then -1
  else if isSafeInteger b.id then 1
  else 0

/-- The in-place sort performed at the start of `makeScriptNode`. -/

def sortScriptItems (l : List ContentItem) : List ContentItem :=
  jsStableSort scriptItemCmp l

/-- Spec-side ordering for the id-bearing group: compare by id value (`none`
never occurs in that group; it is given a harmless default). -/

def idLe (a b : ContentItem) : Bool :=
  match a.id, b.id with
  | some x, some y => x ≤ y
  | some _, none => true
  | none, _ => true

/-- Spec-side stable insertion by id only. -/

def insertById (x : ContentItem) : List ContentItem → List ContentItem
  | [] => [x]
  | y :: ys => if idLe x y then x :: y :: ys else y :: insertById x ys

/-- Spec-side stable sort by id only (ascending, ties keep input order). -/

def sortById (l : List ContentItem) : List ContentItem :=
  l.foldr insertById []

structure DomNode where
  tag : String
  attrs : List (String × String)
  content : String
deriving DecidableEq, Repr

/-- `el.setAttribute(k, v)`. -/

def setAttr (n : DomNode) (k v : String) : DomNode :=
  { n with attrs := mapSet n.attrs k v }

/-- `el.getAttribute(k)` (`none` for a missing attribute). -/

def getAttr (n : DomNode) (k : String) : Option String :=
  mapGet n.attrs k

def isStyleNode (n : DomNode) : Bool := n.tag = "style"

def isScriptNode (n : DomNode) : Bool := n.tag = "script"

def isPassageNode (n : DomNode) : Bool := n.tag = "tw-passagedata"

/-- JS string interpolation of an optional numeric id
(an `undefined` id prints as `"undefined"`). -/

def idToString : Option Int → String
  | some n => toString n
  | none => "undefined"

/-- JS truthiness of an optional string: present and non-empty. -/

def jsTruthyStr : Option String → Bool
  | some s => !(s = "")
  | none => false

/-- `makePassageNode` (source lines 546-564): build one `tw-passagedata`
element; `pid` only for a truthy positive id, `tags` joined by spaces (empty
when absent), `position`/`size` only when truthy. -/

def makePassageNode (T : PassageDataItem) : DomNode :=
  let s : DomNode := { tag := "tw-passagedata", attrs := [], content := "" }
  let s := match T.id with
    | some n => if n ≠ 0 ∧ 0 < n then setAttr s "pid" (toString n) else s
    | none => s
  let s := setAttr s "name" T.name
  let s := setAttr s "tags"
    (match T.tags with
     | some ts => String.intercalate " " ts
     | none => "")
  let s := if jsTruthyStr T.position then setAttr s "position" (T.position.getD "") else s
  let s := if jsTruthyStr T.size then setAttr s "size" (T.size.getD "") else s
  { s with content := T.content }

/-- The identifying comment prefixed to each style entry. -/

def styleComment (T : ContentItem) : String :=
  "/* twine-user-stylesheet #" ++ idToString T.id ++ ": \"" ++ T.name ++ "\" */"

/-- The identifying comment prefixed to each script entry. -/

def scriptComment (T : ContentItem) : String :=
  "/* twine-user-script #" ++ idToString T.id ++ ": \"" ++ T.name ++ "\" */"

/-- `makeStyleNode` (source lines 566-577): one combined `style` element whose
content concatenates every style entry behind its identifying comment. -/

def makeStyleNode (sc : SC2DataInfo) : DomNode :=
  let newStyleNodeContent := sc.styleFileItems.foldl
    (fun acc T => acc ++ styleComment T ++ T.content ++ "\n") ""
  let n : DomNode := { tag := "style", attrs := [], content := "" }
  let n := setAttr n "type" "text/twine-css"
  let n := setAttr n "role" "stylesheet"
  let n := setAttr n "id" "twine-user-stylesheet"
  { n with content := newStyleNodeContent }

/-- `makeScriptNode` (source lines 579-610): sort the script entries in place
with `scriptItemCmp`, then build one combined `script` element. -/

def makeScriptNode (sc : SC2DataInfo) : DomNode :=
  let items := sortScriptItems sc.scriptFileItems
  let newScriptNodeContent := items.foldl
    (fun acc T => acc ++ scriptComment T ++ T.content ++ "\n") ""
  let n : DomNode := { tag := "script", attrs := [], content := "" }
  let n := setAttr n "type" "text/twine-javascript"
  let n := setAttr n "role" "script"
  let n := setAttr n "id" "twine-user-script"
  { n with content := newScriptNodeContent }

/-- The render-tree swap of `patchModToGame` (source lines 503-538): remove
every existing style node, then every script node, then every passage node,
then append the combined script node, the combined style node, and one node
per passage item. -/

def swapTreeStep (tree : List DomNode) (sc : SC2DataInfo) : List DomNode :=
  let newScriptNode := makeScriptNode sc
  let newStyleNode := makeStyleNode sc
  let newPassageDataNode := sc.passageDataItems.map makePassageNode
  let t1 := tree.filter (fun n => !(isStyleNode n))
  let t2 := t1.filter (fun n => !(isScriptNode n))
  let t3 := t2.filter (fun n => !(isPassageNode n))
  t3 ++ [newScriptNode, newStyleNode] ++ newPassageDataNode

/-! ## Merge engine (spec-modelled)

`MergeSC2DataInfoCache.ts` is not under `src/`; the three merge strategies
below are modelled from the spec, section 4.3. -/

/-- Modelled from the spec: one `normalMerge` fold step per kind — the first
occurrence of a name establishes its output position, every later occurrence
of that name replaces the record in place at that position. -/

def normalMergeItems {α : Type} (getName : α → String)
    (acc : List α) (xs : List α) : List α :=
  xs.foldl
    (fun acc x =>
      if acc.any (fun y => getName y = getName x) then
        acc.map (fun y => if getName y = getName x then x else y)
      else acc ++ [x])
    acc

/-- Modelled from the spec (section 4.3, `normalMerge`): fold the mod
snapshots left to right onto the seed, per kind, keyed by record name
(`normalMergeSC2DataInfoCache` lives in `MergeSC2DataInfoCache.ts`, which is
not under `src/`). The conflicts map is not needed by the claims verified
here and is omitted. -/

def normalMergeSC2DataInfoCache (seed : SC2DataInfo) (mods : List SC2DataInfo) :
    SC2DataInfo :=
  mods.foldl
    (fun acc m =>
      { dataSource := acc.dataSource
        styleFileItems := normalMergeItems ContentItem.name acc.styleFileItems m.styleFileItems
        scriptFileItems := normalMergeItems ContentItem.name acc.scriptFileItems m.scriptFileItems
        passageDataItems := normalMergeItems PassageDataItem.name acc.passageDataItems m.passageDataItems })
    seed

/-- Modelled from the spec: one `replaceMerge` step per kind — overlay records
replace same-named base records at their original position; overlay records
with new names are appended at the end in overlay order. -/

def replaceMergeItems {α : Type} (getName : α → String)
    (base overlay : List α) : List α :=
  base.map
      (fun b =>
        match overlay.find? (fun o => getName o = getName b) with
        | some o => o
        | none => b)
    ++ overlay.filter (fun o => !(base.any (fun b => getName b = getName o)))

/-- Modelled from the spec (section 4.3, `replaceMerge(base, overlay)`):
reconcile the merged mod data onto the baseline
(`replaceMergeSC2DataInfoCache` lives in `MergeSC2DataInfoCache.ts`, which is
not under `src/`). -/

def replaceMergeSC2DataInfoCache (base overlay : SC2DataInfo) : SC2DataInfo :=
  { dataSource := base.dataSource
    styleFileItems := replaceMergeItems ContentItem.name base.styleFileItems overlay.styleFileItems
    scriptFileItems := replaceMergeItems ContentItem.name base.scriptFileItems overlay.scriptFileItems
    passageDataItems := replaceMergeItems PassageDataItem.name base.passageDataItems overlay.passageDataItems }

/-- Modelled from the spec (section 4.2, `clone()`): a field-wise deep copy of
a snapshot, so in-place edits of the copy cannot reach the original
(`SC2DataInfoCache.cloneSC2DataInfo` is not under `src/`). -/

def cloneSC2DataInfo (s : SC2DataInfo) : SC2DataInfo :=
  { dataSource := s.dataSource
    styleFileItems := s.styleFileItems.map
      (fun x => { id := x.id, name := x.name, content := x.content })
    scriptFileItems := s.scriptFileItems.map
      (fun x => { id := x.id, name := x.name, content := x.content })
    passageDataItems := s.passageDataItems.map
      (fun x => { id := x.id, name := x.name, content := x.content,
                  tags := x.tags, position := x.position, size := x.size }) }

/-! ## Log entries -/

/-- One leveled log line: a fixed message tag plus its dynamic arguments
(`console.log`/`console.error` and the `LogWrapper` sink are collapsed into
one entry per source logging statement). -/

inductive LogEntry where
  | info (tag : String) (args : List String)
  | error (tag : String) (args : List String)
deriving DecidableEq, Repr

/-- The error-level entries of a log. -/

def errorEntries (l : List LogEntry) : List LogEntry :=
  l.filter (fun e => match e with | .error _ _ => true | .info _ _ => false)

/-- All strings carried by one log entry (tag and arguments). -/

def entryStrings : LogEntry → List String
  | .info tag args => tag :: args
  | .error tag args => tag :: args

/-- Whether a log entry names the given string anywhere (as a substring of
its tag or of one of its arguments). -/

def entryMentions (e : LogEntry) (s : String) : Bool :=
  (entryStrings e).any (fun t => strContains t s)

/-! ## Replace patchers and mods -/

/-- `ReplacePatcher` (`ReplacePatcher.ts` is not under `src/`): a named
transform applied in place to the merged snapshot; it may throw, which the
`Except` value records. Modelled from the spec (section 4.4 step 3 and
section 9: a per-transform success/failure outcome). -/

structure ReplacePatcher where
  patchFileName : String
  applyReplacePatcher : SC2DataInfo → Except String SC2DataInfo

/-- `ModInfo` (from `ModLoader.ts`, not under `src/`): the fields
`patchModToGame`/`applyReplacePatcher` read — the mod's snapshot (`cache`)
and its ordered replace patchers. Modelled from the spec (`ModEntry`). -/

structure ModInfo where
  cache : SC2DataInfo
  replacePatcher : List ReplacePatcher

/-! ## SC2DataManager state -/

/-- The mutable fields of `SC2DataManager` the verified claims touch: the
children of the `tw-storydata` root, the two snapshot caches, and the
`startInitOk` guard. -/

structure MgrState where
  tree : List DomNode
  originSC2DataInfoCache : Option SC2DataInfo
  cSC2DataInfoAfterPatchCache : Option SC2DataInfo
  startInitOk : Bool
deriving DecidableEq, Repr

/-- Modelled from the spec (section 4.2, `capture(renderTree) -> Snapshot`):
read the current script/style/passage nodes into records (the
`SC2DataInfoCache` constructor lives in `SC2DataInfoCache.ts`, which is not
under `src/`). -/

def captureSnapshot (tree : List DomNode) : SC2DataInfo :=
  { dataSource := "orgin"
    styleFileItems := (tree.filter isStyleNode).map
      (fun n => { id := none, name := (getAttr n "id").getD "", content := n.content })
    scriptFileItems := (tree.filter isScriptNode).map
      (fun n => { id := none, name := (getAttr n "id").getD "", content := n.content })
    passageDataItems := (tree.filter isPassageNode).map
      (fun n =>
        { id := (getAttr n "pid").bind String.toInt?
          name := (getAttr n "name").getD ""
          content := n.content
          tags := (getAttr n "tags").map (fun s => s.splitOn " ")
          position := getAttr n "position"
          size := getAttr n "size" }) }

/-- `initSC2DataInfoCache` (source lines 272-283): capture the origin
snapshot from the render tree only if it has not been captured yet. -/

def initSC2DataInfoCache (st : MgrState) : MgrState :=
  match st.originSC2DataInfoCache with
  | some _ => st
  | none => { st with originSC2DataInfoCache := some (captureSnapshot st.tree) }

/-- `getSC2DataInfoCache` (source lines 290-295): ensure the origin snapshot
exists, then return it. -/

def getSC2DataInfoCache (st : MgrState) : Option SC2DataInfo × MgrState :=
  let st1 := initSC2DataInfoCache st
  (st1.originSC2DataInfoCache, st1)

/-- `getSC2DataInfoAfterPatch` (source lines 403-419): ensure the origin
snapshot exists, then return the after-patch snapshot, recapturing it from
the render tree only when the cache is empty. -/

def getSC2DataInfoAfterPatch (st : MgrState) : SC2DataInfo × MgrState :=
  let st1 := initSC2DataInfoCache st
  match st1.cSC2DataInfoAfterPatchCache with
  | some c => (c, st1)
  | none =>
    let c := captureSnapshot st1.tree
    (c, { st1 with cSC2DataInfoAfterPatchCache := some c })

/-- `flushAfterPatchCache` (source lines 421-424): clear the after-patch
cache and recompute it immediately. -/

def flushAfterPatchCache (st : MgrState) : MgrState :=
  (getSC2DataInfoAfterPatch { st with cSC2DataInfoAfterPatchCache := none }).2

/-- `earlyResetSC2DataInfoCache` (source lines 257-263): keep the origin
snapshot valid, then flush the after-patch cache. -/

def earlyResetSC2DataInfoCache (st : MgrState) : MgrState :=
  flushAfterPatchCache (initSC2DataInfoCache st)

/-- `cleanAllCacheAfterModLoadEnd` (source lines 265-270): drop both
snapshot caches. -/

def cleanAllCacheAfterModLoadEnd (st : MgrState) : MgrState :=
  { st with originSC2DataInfoCache := none, cSC2DataInfoAfterPatchCache := none }

/-! ## applyReplacePatcher (source lines 426-452) -/

/-- One iteration of the inner patcher loop: a progress entry naming the mod
and the patch file is logged before and after the attempt; a throw is caught
and logged as an error carrying only the exception message, leaving the
data unchanged. -/

def applyOnePatcher (modName : String) (acc : SC2DataInfo × List LogEntry)
    (rp : ReplacePatcher) : SC2DataInfo × List LogEntry :=
  let before := LogEntry.info "ModLoader ====== applyReplacePatcher() Replace Patch"
    [modName, rp.patchFileName]
  match rp.applyReplacePatcher acc.1 with
  | .ok s1 => (s1, acc.2 ++ [before, before])
  | .error e =>
    (acc.1, acc.2 ++ [before,
      LogEntry.error "ModLoader ====== applyReplacePatcher() Replace Patch Error: " [e],
      before])

/-- All patchers of one mod, in declared order. -/

def applyModPatchers (modName : String) (rps : List ReplacePatcher)
    (acc : SC2DataInfo × List LogEntry) : SC2DataInfo × List LogEntry :=
  rps.foldl (applyOnePatcher modName) acc

/-- One iteration of the outer mod loop: a missing mod is logged and
skipped. -/

def applyPatchersOfName (modCache : List (String × ModInfo))
    (acc : SC2DataInfo × List LogEntry) (modName : String) :
    SC2DataInfo × List LogEntry :=
  match mapGet modCache modName with
  | none => (acc.1, acc.2 ++ [LogEntry.error "applyReplacePatcher() (!mod)" [modName]])
  | some mod => applyModPatchers modName mod.replacePatcher acc

/-- `applyReplacePatcher` (source lines 426-452): for each mod in load order,
for each of its replace patchers in declared order, apply the transform in
place; a throw is caught and logged and the loop continues. -/

def applyReplacePatcher (modOrder : List String)
    (modCache : List (String × ModInfo)) (s : SC2DataInfo) :
    SC2DataInfo × List LogEntry :=
  modOrder.foldl (applyPatchersOfName modCache) (s, [])

/-! ## patchModToGame (source lines 454-544) -/

/-- `patchModToGame`: reset and recompute the after-patch cache, fold the mod
snapshots with `normalMerge` seeded by an empty snapshot, reconcile the
result onto a clone of the freshly captured baseline with `replaceMerge`,
run every replace patcher, swap the render-tree nodes, and flush the
after-patch cache again. Returns the new state and the patcher log. -/

def patchModToGame (modOrder : List String)
    (modCache : List (String × ModInfo)) (st : MgrState) :
    MgrState × List LogEntry :=
  let st0 := { st with cSC2DataInfoAfterPatchCache := none }
  let st1 := flushAfterPatchCache st0
  let originPair := getSC2DataInfoAfterPatch st1
  let originSC2DataInfoCache := originPair.1
  let st2 := originPair.2
  let em := normalMergeSC2DataInfoCache (emptySC2DataInfo "EmptyMod")
    ((modOrder.filterMap (fun n => mapGet modCache n)).map ModInfo.cache)
  let modSC2DataInfoCache := replaceMergeSC2DataInfoCache
    (cloneSC2DataInfo originSC2DataInfoCache) em
  let patchedPair := applyReplacePatcher modOrder modCache modSC2DataInfoCache
  let patched := patchedPair.1
  let logs := patchedPair.2
  let newTree := swapTreeStep st2.tree patched
  let st3 := { st2 with tree := newTree }
  let st4 := flushAfterPatchCache st3
  (st4, logs)

/-- `startInit` (source lines 356-391): the guarded top-level entry point.
The `startInitOk` check and assignment run synchronously before the first
suspension point, so an invocation that starts while another is in flight
sees the flag already set and returns immediately. Mod loading, dependence
checking and addon hooks are external collaborators (spec section 1) with no
effect on the modelled state; the externally loaded mods arrive as
`modOrder`/`modCache`. -/

def startInit (modOrder : List String) (modCache : List (String × ModInfo))
    (st : MgrState) : MgrState × List LogEntry :=
  if st.startInitOk then
    (st, [LogEntry.info "ModLoader ====== SC2DataManager startInit() already start" []])
  else
    let st1 := { st with startInitOk := true }
    let st2 := initSC2DataInfoCache st1
    patchModToGame modOrder modCache st2

/-! ## checkSC2Data (source lines 194-238)

`checkSC2Data` uses `getElementsByTagName` both on the whole document and
inside the story root, and one of its queries looks for nested
`tw-storydata` elements, so it needs a genuine element tree. -/

/-- A document element: tag name and child elements. -/

inductive DocElem where
  | mk (tag : String) (children : List DocElem)

def DocElem.tag : DocElem → String
  | .mk t _ => t

def DocElem.children : DocElem → List DocElem
  | .mk _ cs => cs

/-- `getElementsByTagName` over a forest: every element of the forest with
the given tag, in document order, descendants included. -/

def byTagMany (doc : List DocElem) (t : String) : List DocElem :=
  match doc with
  | [] => []
  | DocElem.mk tg cs :: rest =>
    (if tg = t then [DocElem.mk tg cs] else []) ++ byTagMany cs t ++ byTagMany rest t

/-- `el.getElementsByTagName(t)`: matching descendants of `el` (`el` itself
excluded, as in the DOM). -/

def elemsByTag (e : DocElem) (t : String) : List DocElem :=
  byTagMany e.children t

/-- `checkSC2Data`: the validation pass over the whole document. The
`!rNodes`-style null checks of the source never fire (a DOM `HTMLCollection`
is always truthy) and are omitted; the final `childNodes` inspection only
emits a warning and does not affect the returned value. Note that line 224
of the source queries `tw-storydata` (not `tw-passagedata`) inside the story
root. -/

def checkSC2Data (doc : List DocElem) : Bool :=
  let rNodes := byTagMany doc "tw-storydata"
  if rNodes.length ≠ 1 then false
  else
    match rNodes with
    | [] => false
    | rNode :: _ =>
      let stNodes := elemsByTag rNode "style"
      if stNodes.length ≠ 1 then false
      else
        let scNodes := elemsByTag rNode "script"
        if scNodes.length ≠ 1 then false
        else
          let passageDataNodes := elemsByTag rNode "tw-storydata"
          if passageDataNodes.length < 1 then false
          else true

/-! ## HtmlTagSrcHook (source lines 11-95) -/

/-- An HTML element as `doHook` sees it: its attribute map. -/

structure HtmlElement where
  attrs : List (String × String)
deriving DecidableEq, Repr

def HtmlElement.getAttribute (el : HtmlElement) (k : String) : Option String :=
  mapGet el.attrs k

def HtmlElement.setAttribute (el : HtmlElement) (k v : String) : HtmlElement :=
  { attrs := mapSet el.attrs k v }

/-- `HtmlTagSrcHookType`: a hook receiving the element, the saved source and
the field name; may throw. -/

def HtmlTagSrcHookType : Type :=
  HtmlElement → String → String → Except String Bool

/-- `HtmlTagSrcReturnModeHookType`: a hook receiving the saved source and
returning a handled flag plus the replacement value; may throw. -/

def HtmlTagSrcReturnModeHookType : Type :=
  String → Except String (Bool × String)

/-- The two hook tables of one `HtmlTagSrcHook` instance. -/

structure HtmlTagSrcHookState where
  hookTable : List (String × HtmlTagSrcHookType)
  hookReturnModeTable : List (String × HtmlTagSrcReturnModeHookType)

/-- `addHook` (source lines 23-29): log an error if the key is taken, then
unconditionally store the hook under the key. -/

def addHook (h : HtmlTagSrcHookState) (hookKey : String)
    (hook : HtmlTagSrcHookType) : HtmlTagSrcHookState × List LogEntry :=
  let logs := if mapHas h.hookTable hookKey then
      [LogEntry.error "[HtmlTagSrcHook] addHook: hookKey already exist!" [hookKey]]
    else []
  ({ h with hookTable := mapSet h.hookTable hookKey hook }, logs)

/-- `addReturnModeHook` (source lines 31-37): same shape for the
return-mode table. -/

def addReturnModeHook (h : HtmlTagSrcHookState) (hookKey : String)
    (hook : HtmlTagSrcReturnModeHookType) : HtmlTagSrcHookState × List LogEntry :=
  let logs := if mapHas h.hookReturnModeTable hookKey then
      [LogEntry.error "[HtmlTagSrcHook] addReturnModeHook: hookKey already exist!" [hookKey]]
    else []
  ({ h with hookReturnModeTable := mapSet h.hookReturnModeTable hookKey hook }, logs)

/-- The first loop of `doHook` (source lines 65-76): run the return-mode
hooks in table order on the saved source; the first hook answering
`[true, r]` wins; a throw is logged and skipped. -/

def runReturnModeHooks (tbl : List (String × HtmlTagSrcReturnModeHookType))
    (mlSrc : String) : Option String × List LogEntry :=
  match tbl with
  | [] => (none, [])
  | (hookKey, hook) :: rest =>
    match hook mlSrc with
    | .ok (true, r) => (some r, [])
    | .ok (false, _) => runReturnModeHooks rest mlSrc
    | .error e =>
      ((runReturnModeHooks rest mlSrc).1,
        LogEntry.error "[HtmlTagSrcHook] doHookCallback: call hookKey error"
          [hookKey, e] :: (runReturnModeHooks rest mlSrc).2)

/-- The second loop of `doHook` (source lines 78-87): run the plain hooks in
table order; the first hook answering `true` wins; a throw is logged and
skipped. -/

def runPlainHooks (tbl : List (String × HtmlTagSrcHookType))
    (el : HtmlElement) (mlSrc field : String) : Bool × List LogEntry :=
  match tbl with
  | [] => (false, [])
  | (hookKey, hook) :: rest =>
    match hook el mlSrc field with
    | .ok true => (true, [])
    | .ok false => runPlainHooks rest el mlSrc field
    | .error e =>
      ((runPlainHooks rest el mlSrc field).1,
        LogEntry.error "[HtmlTagSrcHook] doHook: call hookKey error"
          [hookKey, e] :: (runPlainHooks rest el mlSrc field).2)

/-- `doHook` (source lines 55-95): read the saved `ML-<field>` attribute; if
it is missing or empty, log and answer `false`. Otherwise try the
return-mode hooks, then the plain hooks; if none handles the element, mark
it with `ML-src_replace_failed = "1"`, restore the `<field>` attribute from
the saved value, and answer `false`. Returns the answer, the element, and
the log. -/

def doHook (h : HtmlTagSrcHookState) (el : HtmlElement) (field : String) :
    Bool × HtmlElement × List LogEntry :=
  match el.getAttribute ("ML-" ++ field) with
  | none => (false, el, [LogEntry.error "[HtmlTagSrcHook] doHook: no ML-field" [field]])
  | some mlSrc =>
    if mlSrc = "" then
      (false, el, [LogEntry.error "[HtmlTagSrcHook] doHook: no ML-field" [field]])
    else
      match runReturnModeHooks h.hookReturnModeTable mlSrc with
      | (some r, logs) => (true, el.setAttribute field r, logs)
      | (none, logs1) =>
        match runPlainHooks h.hookTable el mlSrc field with
        | (true, logs2) => (true, el, logs1 ++ logs2)
        | (false, logs2) =>
          let el1 := el.setAttribute "ML-src_replace_failed" "1"
          let el2 := el1.setAttribute field mlSrc
          (false, el2, logs1 ++ logs2)

/-! ## Concrete sample values used by witnesses and counterexamples -/

def sampleScriptNode : DomNode :=
  { tag := "script", attrs := [("id", "twine-user-script")], content := "code0" }

def sampleStyleNode : DomNode :=
  { tag := "style", attrs := [("id", "twine-user-stylesheet")], content := "css0" }

def samplePassageNode : DomNode :=
  { tag := "tw-passagedata", attrs := [("pid", "1"), ("name", "Start")], content := "p0" }

def sampleTree : List DomNode :=
  [sampleScriptNode, sampleStyleNode, samplePassageNode]

/-- A state whose after-patch cache is stale on purpose. -/

def sampleState : MgrState :=
  { tree := sampleTree
    originSC2DataInfoCache := none
    cSC2DataInfoAfterPatchCache := some (emptySC2DataInfo "stale")
    startInitOk := false }

def sampleStateStarted : MgrState :=
  { sampleState with startInitOk := true }

def sampleStateOrigin : MgrState :=
  { sampleState with originSC2DataInfoCache := some (emptySC2DataInfo "og") }

/-- A replace patcher that always throws. -/

def rpBoom : ReplacePatcher :=
  { patchFileName := "patchX.json"
    applyReplacePatcher := fun _ => .error "boom" }

/-- A replace patcher that appends one style record. -/

def rpAddStyle : ReplacePatcher :=
  { patchFileName := "patchY.json"
    applyReplacePatcher := fun s =>
      .ok { s with styleFileItems := s.styleFileItems ++ [{ id := none, name := "y", content := "k" }] } }

def modBoom : ModInfo :=
  { cache := emptySC2DataInfo "alphamod"
    replacePatcher := [rpBoom, rpAddStyle] }

def sampleModCache : List (String × ModInfo) :=
  [("alphamod", modBoom)]

def rmThrowHook : HtmlTagSrcReturnModeHookType := fun _ => .error "rm-go-wrong"

def rmDeclineHook : HtmlTagSrcReturnModeHookType := fun _ => .ok (false, "")

def plainThrowHook : HtmlTagSrcHookType := fun _ _ _ => .error "pl-go-wrong"

def plainDeclineHook : HtmlTagSrcHookType := fun _ _ _ => .ok false

def sampleHookState : HtmlTagSrcHookState :=
  { hookTable := [("k3", plainThrowHook), ("k4", plainDeclineHook)]
    hookReturnModeTable := [("k1", rmThrowHook), ("k2", rmDeclineHook)] }

def emptyHookState : HtmlTagSrcHookState :=
  { hookTable := [], hookReturnModeTable := [] }

def sampleEl : HtmlElement :=
  { attrs := [("ML-src", "img/a.png")] }

/-! ## Helper lemmas: association lists -/

def strJoinMap {α : Type} (f : α → String) : List α → String
  | [] => ""
  | x :: xs => f x ++ strJoinMap f xs

lemma mem_insertById {x a : ContentItem} {l : List ContentItem} :
    a ∈ insertById x l ↔ a = x ∨ a ∈ l := by
  induction l with
  | nil => simp [insertById]
  | cons y ys ih =>
    by_cases h : idLe x y = true
    · simp [insertById, h]
    · simp [insertById, h, ih]
      tauto

lemma mem_sortById {a : ContentItem} {l : List ContentItem} :
    a ∈ sortById l ↔ a ∈ l := by
  induction l with
  | nil => simp [sortById]
  | cons y ys ih =>
    simp only [sortById, List.foldr_cons] at *
    rw [mem_insertById, ih]
    simp

lemma idLe_total (a b : ContentItem) : idLe a b = true ∨ idLe b a = true := by
  unfold idLe
  rcases a.id with _ | x <;> rcases b.id with _ | y <;> simp
  omega

lemma idLe_trans_safe {a b c : ContentItem}
    (ha : isSafeInteger a.id = true) (hb : isSafeInteger b.id = true)
    (hc : isSafeInteger c.id = true)
    (hab : idLe a b = true) (hbc : idLe b c = true) : idLe a c = true := by
  rcases hA : a.id with _ | x
  · simp [isSafeInteger, hA] at ha
  rcases hB : b.id with _ | y
  · simp [isSafeInteger, hB] at hb
  rcases hC : c.id with _ | z
  · simp [isSafeInteger, hC] at hc
  simp only [idLe, hA, hB, decide_eq_true_eq] at hab
  simp only [idLe, hB, hC, decide_eq_true_eq] at hbc
  simp only [idLe, hA, hC, decide_eq_true_eq]
  omega

lemma pairwise_insertById {x : ContentItem} {l : List ContentItem}
    (hx : isSafeInteger x.id = true) (hl : ∀ a ∈ l, isSafeInteger a.id = true)
    (h : l.Pairwise (fun a b => idLe a b = true)) :
    (insertById x l).Pairwise (fun a b => idLe a b = true) := by
  induction l with
  | nil => simp [insertById]
  | cons y ys ih =>
    rcases List.pairwise_cons.mp h with ⟨hy, hys⟩
    by_cases hxy : idLe x y = true
    · rw [insertById, if_pos hxy]
      refine List.pairwise_cons.mpr ⟨?_, h⟩
      intro a ha
      rcases List.mem_cons.mp ha with rfl | ha
      · exact hxy
      · exact idLe_trans_safe hx (hl y (by simp)) (hl a (by simp [ha])) hxy
          (hy a ha)
    · rw [insertById, if_neg hxy]
      refine List.pairwise_cons.mpr ⟨?_, ?_⟩
      · intro a ha
        rcases mem_insertById.mp ha with rfl | ha
        · rcases idLe_total a y with hh | hh
          · exact absurd hh hxy
          · exact hh
        · exact hy a ha
      · exact ih (fun a ha => hl a (by simp [ha])) hys

lemma pairwise_sortById {l : List ContentItem}
    (hl : ∀ a ∈ l, isSafeInteger a.id = true) :
    (sortById l).Pairwise (fun a b => idLe a b = true) := by
  induction l with
  | nil => simp [sortById]
  | cons y ys ih =>
    simp only [sortById, List.foldr_cons]
    refine pairwise_insertById (hl y (by simp)) ?_ ?_
    · intro a ha
      exact hl a (by simp [mem_sortById.mp ha])
    · exact ih (fun a ha => hl a (by simp [ha]))

lemma scriptItemCmp_safe_unsafe {a b : ContentItem}
    (ha : isSafeInteger a.id = true) (hb : isSafeInteger b.id = false) :
    scriptItemCmp a b = -1 := by
  simp [scriptItemCmp, ha, hb]

lemma scriptItemCmp_unsafe_safe {a b : ContentItem}
    (ha : isSafeInteger a.id = false) (hb : isSafeInteger b.id = true) :
    scriptItemCmp a b = 1 := by
  simp [scriptItemCmp, ha, hb]

lemma scriptItemCmp_unsafe_unsafe {a b : ContentItem}
    (ha : isSafeInteger a.id = false) (hb : isSafeInteger b.id = false) :
    scriptItemCmp a b = 0 := by
  simp [scriptItemCmp, ha, hb]

lemma scriptItemCmp_le_iff_idLe {a b : ContentItem}
    (ha : isSafeInteger a.id = true) (hb : isSafeInteger b.id = true) :
    (scriptItemCmp a b ≤ 0) ↔ idLe a b = true := by
  unfold isSafeInteger at ha hb
  rcases hx : a.id with _ | x
  · simp [hx] at ha
  rcases hy : b.id with _ | y
  · simp [hy] at hb
  simp only [scriptItemCmp, isSafeInteger, hx, hy, idLe]
  simp only [hx] at ha
  simp only [hy] at hb
  simp only [ha, hb, decide_True, Bool.and_self, if_true]
  by_cases h1 : x < y
  · simp [h1]
    omega
  · by_cases h2 : x = y
    · simp [h1, h2]
    · simp [h1, h2]
      omega

/-- Inserting a safe-integer item into a safe-integer block followed by an
id-less block is inserting by id into the first block. -/

lemma insertByCmp_safe_split (x : ContentItem)
    (hx : isSafeInteger x.id = true) :
    ∀ (A B : List ContentItem), (∀ a ∈ A, isSafeInteger a.id = true) →
    (∀ b ∈ B, isSafeInteger b.id = false) →
    insertByCmp scriptItemCmp x (A ++ B) = insertById x A ++ B := by
  intro A
  induction A with
  | nil =>
    intro B _ hB
    cases B with
    | nil => simp [insertByCmp, insertById]
    | cons b bs =>
      have hb := hB b (by simp)
      simp [insertByCmp, insertById, scriptItemCmp_safe_unsafe hx hb]
  | cons a as ih =>
    intro B hA hB
    have ha := hA a (by simp)
    by_cases h : idLe x a = true
    · have hc : scriptItemCmp x a ≤ 0 := (scriptItemCmp_le_iff_idLe hx ha).mpr h
      simp [insertByCmp, insertById, h, hc]
    · have hc : ¬ scriptItemCmp x a ≤ 0 := fun hcc =>
        h ((scriptItemCmp_le_iff_idLe hx ha).mp hcc)
      simp only [List.cons_append, insertByCmp, insertById, if_neg hc,
        if_neg h, List.append_eq]
      rw [ih B (fun a' ha' => hA a' (by simp [ha'])) hB]

/-- Inserting an id-less item into a safe-integer block followed by an id-less
block puts it at the head of the second block. -/

lemma insertByCmp_unsafe_split (x : ContentItem)
    (hx : isSafeInteger x.id = false) :
    ∀ (A B : List ContentItem), (∀ a ∈ A, isSafeInteger a.id = true) →
    (∀ b ∈ B, isSafeInteger b.id = false) →
    insertByCmp scriptItemCmp x (A ++ B) = A ++ x :: B := by
  intro A
  induction A with
  | nil =>
    intro B _ hB
    cases B with
    | nil => simp [insertByCmp]
    | cons b bs =>
      have hb := hB b (by simp)
      have : scriptItemCmp x b = 0 := scriptItemCmp_unsafe_unsafe hx hb
      simp [insertByCmp, this]
  | cons a as ih =>
    intro B hA hB
    have ha := hA a (by simp)
    have hc : scriptItemCmp x a = 1 := scriptItemCmp_unsafe_safe hx ha
    simp only [List.cons_append, insertByCmp, hc]
    norm_num
    exact ih B (fun a' ha' => hA a' (by simp [ha'])) hB

lemma mem_sortById_safe {l : List ContentItem}
    (hl : ∀ a ∈ l, isSafeInteger a.id = true) :
    ∀ a ∈ sortById l, isSafeInteger a.id = true := by
  intro a ha
  exact hl a (mem_sortById.mp ha)

/-- The sort in `makeScriptNode` is a stable partition: the safe-integer-id
group, stably sorted ascending by id, followed by the id-less group in its
original relative order. -/

lemma sortScriptItems_split (l : List ContentItem) :
    sortScriptItems l =
      sortById (l.filter (fun r => isSafeInteger r.id))
        ++ l.filter (fun r => !(isSafeInteger r.id)) := by
  induction l with
  | nil => simp [sortScriptItems, jsStableSort, sortById]
  | cons x xs ih =>
    have hA : ∀ a ∈ sortById (xs.filter (fun r => isSafeInteger r.id)),
        isSafeInteger a.id = true := by
      refine mem_sortById_safe ?_
      intro a ha
      exact (List.mem_filter.mp ha).2
    have hB : ∀ b ∈ xs.filter (fun r => !(isSafeInteger r.id)),
        isSafeInteger b.id = false := by
      intro b hb
      have := (List.mem_filter.mp hb).2
      simpa using this
    simp only [sortScriptItems, jsStableSort, List.foldr_cons] at *
    rw [ih]
    by_cases hx : isSafeInteger x.id = true
    · rw [insertByCmp_safe_split x hx _ _ hA hB]
      simp only [List.filter_cons, hx]
      simp [sortById]
    · have hx' : isSafeInteger x.id = false := by
        simpa using hx
      rw [insertByCmp_unsafe_split x hx' _ _ hA hB]
      simp only [List.filter_cons, hx']
      simp

/-! ## Render-tree node model

The children of the single `tw-storydata` root relevant to the patch pipeline
(style / script / tw-passagedata elements) are modelled as a flat list of
`DomNode`s; attributes are an insertion-ordered association list, matching
`setAttribute` semantics. -/

/-- A DOM element as the patch pipeline sees it: tag name, attributes, and
`textContent`. -/

lemma mapGet_mapSet_self {α : Type} (tbl : List (String × α)) (k : String) (v : α) :
    mapGet (mapSet tbl k v) k = some v := by
  induction tbl with
  | nil => simp [mapSet, mapGet]
  | cons p rest ih =>
    obtain ⟨k1, v1⟩ := p
    by_cases h : k1 = k
    · simp [mapSet, h, mapGet]
    · simp [mapSet, h, mapGet, ih]

lemma mapGet_mapSet_ne {α : Type} (tbl : List (String × α)) (k k' : String)
    (v : α) (h : k ≠ k') : mapGet (mapSet tbl k v) k' = mapGet tbl k' := by
  induction tbl with
  | nil => simp [mapSet, mapGet, h]
  | cons p rest ih =>
    obtain ⟨k1, v1⟩ := p
    by_cases h1 : k1 = k
    · subst h1
      simp [mapSet, mapGet, h]
    · simp [mapSet, h1, mapGet, ih]

lemma mapGet_eq_none_iff {α : Type} (tbl : List (String × α)) (k : String) :
    mapGet tbl k = none ↔ k ∉ tbl.map Prod.fst := by
  induction tbl with
  | nil => simp [mapGet]
  | cons p rest ih =>
    obtain ⟨k1, v1⟩ := p
    by_cases h : k1 = k
    · subst h
      simp [mapGet]
    · simp [mapGet, h, ih, Ne.symm h]

lemma filter_key_not_mem {α : Type} (tbl : List (String × α)) (k : String)
    (h : k ∉ tbl.map Prod.fst) :
    tbl.filter (fun p => p.1 = k) = [] := by
  induction tbl with
  | nil => simp
  | cons p rest ih =>
    obtain ⟨k1, v1⟩ := p
    simp only [List.map_cons, List.mem_cons] at h
    push_neg at h
    simp [List.filter_cons, Ne.symm h.1, ih h.2]

lemma filter_mapSet_self {α : Type} (tbl : List (String × α)) (k : String)
    (v : α) (h : (tbl.map Prod.fst).Nodup) :
    (mapSet tbl k v).filter (fun p => p.1 = k) = [(k, v)] := by
  induction tbl with
  | nil => simp [mapSet]
  | cons p rest ih =>
    obtain ⟨k1, v1⟩ := p
    simp only [List.map_cons, List.nodup_cons] at h
    by_cases hk : k1 = k
    · subst hk
      simp only [mapSet, if_pos rfl, List.filter_cons]
      simp [filter_key_not_mem rest k1 h.1]
    · simp [mapSet, hk, List.filter_cons, Ne.symm hk, ih h.2]

lemma keys_mapSet_subset {α : Type} (tbl : List (String × α)) (k : String)
    (v : α) : ∀ x ∈ (mapSet tbl k v).map Prod.fst, x ∈ tbl.map Prod.fst ∨ x = k := by
  induction tbl with
  | nil =>
    intro x hx
    simp only [mapSet, List.map_cons, List.map_nil, List.mem_singleton] at hx
    right
    exact hx
  | cons p rest ih =>
    obtain ⟨k1, v1⟩ := p
    intro x hx
    by_cases h : k1 = k
    · subst h
      simp only [mapSet, if_pos rfl, List.map_cons] at hx
      rcases List.mem_cons.mp hx with h1 | h1
      · right; exact h1
      · left
        simp only [List.map_cons]
        exact List.mem_cons_of_mem _ h1
    · simp only [mapSet, if_neg h, List.map_cons] at hx
      rcases List.mem_cons.mp hx with h1 | h1
      · left
        simp only [List.map_cons]
        rw [h1]
        exact List.mem_cons_self _ _
      · rcases ih x h1 with h2 | h2
        · left
          simp only [List.map_cons]
          exact List.mem_cons_of_mem _ h2
        · right; exact h2

lemma nodup_keys_mapSet {α : Type} (tbl : List (String × α)) (k : String)
    (v : α) (h : (tbl.map Prod.fst).Nodup) :
    ((mapSet tbl k v).map Prod.fst).Nodup := by
  induction tbl with
  | nil => simp [mapSet]
  | cons p rest ih =>
    obtain ⟨k1, v1⟩ := p
    simp only [List.map_cons, List.nodup_cons] at h
    by_cases hk : k1 = k
    · subst hk
      simpa [mapSet] using h
    · simp only [mapSet, if_neg hk, List.map_cons, List.nodup_cons]
      refine ⟨?_, ih h.2⟩
      intro hmem
      rcases keys_mapSet_subset rest k v k1 hmem with h2 | h2
      · exact h.1 h2
      · exact hk h2

/-! ## Helper lemmas: cache lifecycle -/

lemma initSC2DataInfoCache_eq (st : MgrState) :
    initSC2DataInfoCache st =
      { st with
          originSC2DataInfoCache :=
            some (st.originSC2DataInfoCache.getD (captureSnapshot st.tree)) } := by
  obtain ⟨tr, og, cap, fl⟩ := st
  cases og <;> simp [initSC2DataInfoCache]

lemma initSC2DataInfoCache_some {st : MgrState} {c : SC2DataInfo}
    (h : st.originSC2DataInfoCache = some c) : initSC2DataInfoCache st = st := by
  obtain ⟨tr, og, cap, fl⟩ := st
  simp only at h
  subst h
  simp [initSC2DataInfoCache]

lemma flushAfterPatchCache_eq (st : MgrState) :
    flushAfterPatchCache st =
      { st with
          originSC2DataInfoCache :=
            some (st.originSC2DataInfoCache.getD (captureSnapshot st.tree)),
          cSC2DataInfoAfterPatchCache := some (captureSnapshot st.tree) } := by
  obtain ⟨tr, og, cap, fl⟩ := st
  cases og <;>
    simp [flushAfterPatchCache, getSC2DataInfoAfterPatch, initSC2DataInfoCache]

lemma getSC2DataInfoAfterPatch_some {st : MgrState} {c : SC2DataInfo}
    (h : st.cSC2DataInfoAfterPatchCache = some c) :
    getSC2DataInfoAfterPatch st = (c, initSC2DataInfoCache st) := by
  obtain ⟨tr, og, cap, fl⟩ := st
  simp only at h
  subst h
  cases og <;> simp [getSC2DataInfoAfterPatch, initSC2DataInfoCache]

lemma getSC2DataInfoAfterPatch_none {st : MgrState}
    (h : st.cSC2DataInfoAfterPatchCache = none) :
    getSC2DataInfoAfterPatch st =
      (captureSnapshot st.tree,
        { initSC2DataInfoCache st with
            cSC2DataInfoAfterPatchCache := some (captureSnapshot st.tree) }) := by
  obtain ⟨tr, og, cap, fl⟩ := st
  simp only at h
  subst h
  cases og <;> simp [getSC2DataInfoAfterPatch, initSC2DataInfoCache]

/-! ## Helper lemmas: the patcher loop threads its log additively -/

lemma applyOnePatcher_log (modName : String) (s : SC2DataInfo)
    (l : List LogEntry) (rp : ReplacePatcher) :
    applyOnePatcher modName (s, l) rp =
      ((applyOnePatcher modName (s, []) rp).1,
        l ++ (applyOnePatcher modName (s, []) rp).2) := by
  unfold applyOnePatcher
  cases rp.applyReplacePatcher s <;> simp

lemma applyModPatchers_log (modName : String) (rps : List ReplacePatcher) :
    ∀ (s : SC2DataInfo) (l : List LogEntry),
    applyModPatchers modName rps (s, l) =
      ((applyModPatchers modName rps (s, [])).1,
        l ++ (applyModPatchers modName rps (s, [])).2) := by
  induction rps with
  | nil => intro s l; simp [applyModPatchers]
  | cons rp rest ih =>
    intro s l
    simp only [applyModPatchers, List.foldl_cons] at *
    rw [applyOnePatcher_log modName s l rp]
    rcases h1 : applyOnePatcher modName (s, []) rp with ⟨s1, l1⟩
    rw [ih s1 (l ++ l1), ih s1 l1]
    simp

lemma applyPatchersOfName_log (mc : List (String × ModInfo)) (n : String) :
    ∀ (s : SC2DataInfo) (l : List LogEntry),
    applyPatchersOfName mc (s, l) n =
      ((applyPatchersOfName mc (s, []) n).1,
        l ++ (applyPatchersOfName mc (s, []) n).2) := by
  intro s l
  unfold applyPatchersOfName
  cases mapGet mc n with
  | none => simp
  | some mod => simpa using applyModPatchers_log n mod.replacePatcher s l

lemma applyReplacePatcher_loop_log (o : List String)
    (mc : List (String × ModInfo)) :
    ∀ (s : SC2DataInfo) (l : List LogEntry),
    o.foldl (applyPatchersOfName mc) (s, l) =
      ((o.foldl (applyPatchersOfName mc) (s, [])).1,
        l ++ (o.foldl (applyPatchersOfName mc) (s, [])).2) := by
  induction o with
  | nil => intro s l; simp
  | cons n rest ih =>
    intro s l
    simp only [List.foldl_cons]
    rw [applyPatchersOfName_log mc n s l]
    rcases h1 : applyPatchersOfName mc (s, []) n with ⟨s1, l1⟩
    rw [ih s1 (l ++ l1), ih s1 l1]
    simp

/-- Splitting the mod loop: running the loop over a concatenated order is
running it over the first part and continuing, with the logs appended. -/

lemma applyReplacePatcher_append (o1 o2 : List String)
    (mc : List (String × ModInfo)) (s : SC2DataInfo) :
    applyReplacePatcher (o1 ++ o2) mc s =
      ((applyReplacePatcher o2 mc (applyReplacePatcher o1 mc s).1).1,
        (applyReplacePatcher o1 mc s).2
          ++ (applyReplacePatcher o2 mc (applyReplacePatcher o1 mc s).1).2) := by
  unfold applyReplacePatcher
  rw [List.foldl_append]
  rcases h1 : o1.foldl (applyPatchersOfName mc) (s, []) with ⟨s1, l1⟩
  rw [applyReplacePatcher_loop_log o2 mc s1 l1]

/-- Spec-side plain concatenation of rendered entries (used to restate the
`reduce` in `makeStyleNode`/`makeScriptNode`). -/

lemma foldl_strAppend {α : Type} (f : α → String) (l : List α) :
    ∀ s : String, l.foldl (fun acc T => acc ++ f T) s = s ++ strJoinMap f l := by
  induction l with
  | nil => intro s; simp [strJoinMap]
  | cons x xs ih =>
    intro s
    simp only [List.foldl_cons, strJoinMap]
    rw [ih (s ++ f x), String.append_assoc]

/-! ## Helper lemmas: node builders and the render-tree swap -/

lemma makeStyleNode_tag (sc : SC2DataInfo) : (makeStyleNode sc).tag = "style" := rfl

lemma makeScriptNode_tag (sc : SC2DataInfo) : (makeScriptNode sc).tag = "script" := rfl

lemma makePassageNode_tag (T : PassageDataItem) :
    (makePassageNode T).tag = "tw-passagedata" := by
  unfold makePassageNode
  rcases hid : T.id with _ | n <;>
    rcases htags : T.tags with _ | ts <;>
      simp [setAttr, apply_ite DomNode.tag]

lemma mem_swapRetained {tree : List DomNode} {a : DomNode}
    (ha : a ∈ ((tree.filter (fun n => !(isStyleNode n))).filter
        (fun n => !(isScriptNode n))).filter (fun n => !(isPassageNode n))) :
    isStyleNode a = false ∧ isScriptNode a = false ∧ isPassageNode a = false := by
  have h3 := List.of_mem_filter ha
  have ha2 := List.mem_of_mem_filter ha
  have h2 := List.of_mem_filter ha2
  have ha1 := List.mem_of_mem_filter ha2
  have h1 := List.of_mem_filter ha1
  simp only [Bool.not_eq_true'] at h1 h2 h3
  exact ⟨h1, h2, h3⟩

lemma filter_passages_map {p : DomNode → Bool} (items : List PassageDataItem)
    (hp : ∀ T, p (makePassageNode T) = false) :
    (items.map makePassageNode).filter p = [] := by
  rw [List.filter_eq_nil_iff]
  intro a ha
  rcases List.mem_map.mp ha with ⟨T, _, rfl⟩
  simp [hp T]

/-! ## Helper lemmas: document queries -/

/-- A tag match found anywhere in a forest accounts for itself and all the
matches inside it: the query rooted at its children is strictly smaller. -/

lemma byTagMany_mem_le : ∀ (doc : List DocElem) (t : String) (r : DocElem),
    r ∈ byTagMany doc t →
    (byTagMany r.children t).length + 1 ≤ (byTagMany doc t).length
  | [], t, r, h => by simp [byTagMany] at h
  | DocElem.mk tg cs :: rest, t, r, h => by
    have ihcs := byTagMany_mem_le cs t r
    have ihrest := byTagMany_mem_le rest t r
    by_cases htg : tg = t
    · simp only [byTagMany, if_pos htg] at h ⊢
      rcases List.mem_append.mp h with h1 | h2
      · rcases List.mem_append.mp h1 with h0 | hcs
        · simp only [List.mem_singleton] at h0
          subst h0
          simp only [DocElem.children, List.length_append, List.length_singleton]
          omega
        · have := ihcs hcs
          simp only [List.length_append, List.length_singleton]
          omega
      · have := ihrest h2
        simp only [List.length_append, List.length_singleton]
        omega
    · simp only [byTagMany, if_neg htg, List.nil_append] at h ⊢
      rcases List.mem_append.mp h with hcs | h2
      · have := ihcs hcs
        simp only [List.length_append]
        omega
      · have := ihrest h2
        simp only [List.length_append]
        omega

/-! ## Helper lemmas: hook loops -/

lemma runReturnModeHooks_decline (tbl : List (String × HtmlTagSrcReturnModeHookType))
    (s : String)
    (h : ∀ p ∈ tbl, (∃ e, p.2 s = .error e) ∨ (∃ b, p.2 s = .ok (false, b))) :
    (runReturnModeHooks tbl s).1 = none := by
  induction tbl with
  | nil => simp [runReturnModeHooks]
  | cons p rest ih =>
    obtain ⟨k, hook⟩ := p
    have hrest := ih (fun q hq => h q (List.mem_cons_of_mem _ hq))
    rcases h (k, hook) (List.mem_cons_self _ _) with ⟨e, he⟩ | ⟨b, hb⟩
    · have he2 : hook s = Except.error e := he
      unfold runReturnModeHooks
      rw [he2]
      exact hrest
    · have hb2 : hook s = Except.ok (false, b) := hb
      unfold runReturnModeHooks
      rw [hb2]
      exact hrest

lemma runPlainHooks_decline (tbl : List (String × HtmlTagSrcHookType))
    (el : HtmlElement) (s field : String)
    (h : ∀ p ∈ tbl, (∃ e, p.2 el s field = .error e) ∨ p.2 el s field = .ok false) :
    (runPlainHooks tbl el s field).1 = false := by
  induction tbl with
  | nil => simp [runPlainHooks]
  | cons p rest ih =>
    obtain ⟨k, hook⟩ := p
    have hrest := ih (fun q hq => h q (List.mem_cons_of_mem _ hq))
    rcases h (k, hook) (List.mem_cons_self _ _) with ⟨e, he⟩ | hb
    · have he2 : hook el s field = Except.error e := he
      unfold runPlainHooks
      rw [he2]
      exact hrest
    · have hb2 : hook el s field = Except.ok false := hb
      unfold runPlainHooks
      rw [hb2]
      exact hrest

/-! ## Claim theorems -/

/-- C2 counterexample: the claim requires a well-formed NON-NEGATIVE integer
id for the first group and demands that records lacking such an id keep
their prior relative order. On the input
`[{id: None, n: a}, {id: -1, n: b}]` neither record has a non-negative
integer id, so the claim predicts the order is preserved; the code's
comparator accepts the negative safe integer `-1` and moves that record to
the front. -/

theorem scriptSort_negative_id_counterexample :
    sortScriptItems
        [{ id := none, name := "a", content := "" },
          { id := some (-1), name := "b", content := "" }] =
      [{ id := some (-1), name := "b", content := "" },
        { id := none, name := "a", content := "" }] ∧
    [({ id := some (-1), name := "b", content := "" } : ContentItem),
        { id := none, name := "a", content := "" }] ≠
      [{ id := none, name := "a", content := "" },
        { id := some (-1), name := "b", content := "" }] := by
  constructor
  · rfl
  · decide

/-- C2 (amended: the id-bearing group is the group with a well-formed
*integer* id — lodash `isSafeInteger`, which also accepts negative safe
integers — not a non-negative one): the pre-serialization sort of
`makeScriptNode` stably partitions the records into the safe-integer-id
group first, sorted ascending by id with ties keeping input order, followed
by the records lacking such an id in their prior relative order; and the
claim's concrete example sorts as stated. -/

theorem makeScriptNode_sort_characterization (l : List ContentItem) :
    sortScriptItems l =
        sortById (l.filter (fun r => isSafeInteger r.id))
          ++ l.filter (fun r => !(isSafeInteger r.id)) ∧
      (sortById (l.filter (fun r => isSafeInteger r.id))).Pairwise
        (fun a b => idLe a b = true) ∧
      sortScriptItems
          [{ id := none, name := "n1", content := "" },
            { id := some 5, name := "n2", content := "" },
            { id := none, name := "n3", content := "" },
            { id := some 2, name := "n4", content := "" }] =
        [{ id := some 2, name := "n4", content := "" },
          { id := some 5, name := "n2", content := "" },
          { id := none, name := "n1", content := "" },
          { id := none, name := "n3", content := "" }] := by
  refine ⟨sortScriptItems_split l, ?_, ?_⟩
  · refine pairwise_sortById ?_
    intro a ha
    exact (List.mem_filter.mp ha).2
  · rfl

/-- C8: the claim says `checkSC2Data` answers `true` on every well-shaped
document (one story root, one style node, one script node, any number of
passage nodes). In fact the passage query on source line 224 asks for
`tw-storydata` descendants of the story root instead of `tw-passagedata`,
and requires at least one: if the whole document has exactly one
`tw-storydata`, that root has no `tw-storydata` descendant, so the check
fails — `checkSC2Data` answers `false` on every document whatsoever. -/

theorem checkSC2Data_always_false (doc : List DocElem) :
    checkSC2Data doc = false := by
  unfold checkSC2Data
  cases hN : byTagMany doc "tw-storydata" with
  | nil => simp
  | cons rNode rest =>
    by_cases hlen : (rNode :: rest).length = 1
    · have hr : rNode ∈ byTagMany doc "tw-storydata" := by
        rw [hN]
        exact List.mem_cons_self _ _
      have hle := byTagMany_mem_le doc "tw-storydata" rNode hr
      rw [hN, hlen] at hle
      have hzero : (byTagMany rNode.children "tw-storydata").length = 0 := by omega
      by_cases h1 : (elemsByTag rNode "style").length = 1 <;>
        by_cases h2 : (elemsByTag rNode "script").length = 1 <;>
          simp [hlen, h1, h2, elemsByTag, hzero]
    · rw [if_pos hlen]

lemma foldl_strAppend3 {α : Type} (f g h : α → String) (l : List α) :
    ∀ s : String, l.foldl (fun acc T => acc ++ f T ++ g T ++ h T) s
      = s ++ strJoinMap (fun T => f T ++ g T ++ h T) l := by
  induction l with
  | nil => intro s; simp [strJoinMap]
  | cons x xs ih =>
    intro s
    simp only [List.foldl_cons, strJoinMap]
    rw [ih]
    simp [String.append_assoc]

/-- C3: after the render-tree swap step, the only style node left is the one
combined style node, the only script node is the one combined script node,
and the passage nodes are exactly one per merged passage record — every
style/script/passage node present beforehand is gone. The two combined
nodes concatenate all entries, each entry prefixed by its identifying
comment naming its id and name. -/

theorem swapTree_replaces_all_nodes (tree : List DomNode) (sc : SC2DataInfo) :
    (swapTreeStep tree sc).filter isStyleNode = [makeStyleNode sc] ∧
    (swapTreeStep tree sc).filter isScriptNode = [makeScriptNode sc] ∧
    (swapTreeStep tree sc).filter isPassageNode
      = sc.passageDataItems.map makePassageNode ∧
    (makeScriptNode sc).content =
      strJoinMap (fun T => scriptComment T ++ T.content ++ "\n")
        (sortScriptItems sc.scriptFileItems) ∧
    (makeStyleNode sc).content =
      strJoinMap (fun T => styleComment T ++ T.content ++ "\n")
        sc.styleFileItems := by
  have hpassStyle : ∀ T, isStyleNode (makePassageNode T) = false := by
    intro T
    simp [isStyleNode, makePassageNode_tag]
  have hpassScript : ∀ T, isScriptNode (makePassageNode T) = false := by
    intro T
    simp [isScriptNode, makePassageNode_tag]
  have hpassPass : ∀ T, isPassageNode (makePassageNode T) = true := by
    intro T
    simp [isPassageNode, makePassageNode_tag]
  refine ⟨?_, ?_, ?_, ?_, ?_⟩
  · unfold swapTreeStep
    simp only [List.filter_append]
    rw [List.filter_eq_nil_iff.mpr
      (fun a ha => by simp [(mem_swapRetained ha).1])]
    rw [filter_passages_map sc.passageDataItems hpassStyle]
    simp [List.filter_cons, isStyleNode, makeScriptNode_tag, makeStyleNode_tag]
  · unfold swapTreeStep
    simp only [List.filter_append]
    rw [List.filter_eq_nil_iff.mpr
      (fun a ha => by simp [(mem_swapRetained ha).2.1])]
    rw [filter_passages_map sc.passageDataItems hpassScript]
    simp [List.filter_cons, isScriptNode, makeScriptNode_tag, makeStyleNode_tag]
  · unfold swapTreeStep
    simp only [List.filter_append]
    rw [List.filter_eq_nil_iff.mpr
      (fun a ha => by simp [(mem_swapRetained ha).2.2])]
    have h2 : List.filter isPassageNode [makeScriptNode sc, makeStyleNode sc] = [] := by
      simp [List.filter_cons, isPassageNode, makeScriptNode_tag, makeStyleNode_tag]
    rw [h2]
    rw [List.filter_eq_self.mpr (fun a ha => by
      rcases List.mem_map.mp ha with ⟨T, _, rfl⟩
      simp [hpassPass T])]
    simp
  · unfold makeScriptNode
    simp only
    rw [foldl_strAppend3]
    simp
  · unfold makeStyleNode
    simp only
    rw [foldl_strAppend3]
    simp

/-- C1: `patchModToGame` first folds the mod snapshots (taken from the cache
in externally supplied load order) with `normalMerge` seeded by an empty
snapshot, then reconciles that result via `replaceMerge` onto a CLONE of the
freshly recomputed after-patch baseline — the baseline captured from the
current render tree, regardless of any stale cache content — then applies
the per-mod replace patchers to the result, and the tree swap serializes
exactly that final dataset. -/

theorem patchModToGame_pipeline_order (modOrder : List String)
    (modCache : List (String × ModInfo)) (st : MgrState) :
    ((patchModToGame modOrder modCache st).1).tree =
        swapTreeStep st.tree
          (applyReplacePatcher modOrder modCache
            (replaceMergeSC2DataInfoCache
              (cloneSC2DataInfo (captureSnapshot st.tree))
              (normalMergeSC2DataInfoCache (emptySC2DataInfo "EmptyMod")
                ((modOrder.filterMap (fun n => mapGet modCache n)).map
                  ModInfo.cache)))).1 ∧
      (patchModToGame modOrder modCache st).2 =
        (applyReplacePatcher modOrder modCache
          (replaceMergeSC2DataInfoCache
            (cloneSC2DataInfo (captureSnapshot st.tree))
            (normalMergeSC2DataInfoCache (emptySC2DataInfo "EmptyMod")
              ((modOrder.filterMap (fun n => mapGet modCache n)).map
                ModInfo.cache)))).2 := by
  obtain ⟨tr, og, cap, fl⟩ := st
  constructor <;>
    cases og <;>
      simp [patchModToGame, flushAfterPatchCache, getSC2DataInfoAfterPatch,
        initSC2DataInfoCache]

/-- C4: `flushAfterPatchCache` clears the after-patch cache and immediately
recomputes it from the current render tree without touching that tree;
`getSC2DataInfoAfterPatch` returns the cached snapshot untouched when one is
present and recaptures from the tree only when the cache is empty (lazy
derivation); and when `patchModToGame` returns, the after-patch cache holds
exactly the capture of the just-rewritten tree. -/

theorem afterPatchCache_lazy_recompute :
    (∀ st : MgrState,
        (flushAfterPatchCache st).cSC2DataInfoAfterPatchCache
            = some (captureSnapshot st.tree) ∧
          (flushAfterPatchCache st).tree = st.tree) ∧
      (∀ (st : MgrState) (c : SC2DataInfo),
        st.cSC2DataInfoAfterPatchCache = some c →
          getSC2DataInfoAfterPatch st = (c, initSC2DataInfoCache st)) ∧
      (∀ st : MgrState, st.cSC2DataInfoAfterPatchCache = none →
        getSC2DataInfoAfterPatch st =
          (captureSnapshot st.tree,
            { initSC2DataInfoCache st with
                cSC2DataInfoAfterPatchCache := some (captureSnapshot st.tree) })) ∧
      (∀ (o : List String) (mc : List (String × ModInfo)) (st : MgrState),
        ((patchModToGame o mc st).1).cSC2DataInfoAfterPatchCache
          = some (captureSnapshot ((patchModToGame o mc st).1).tree)) := by
  refine ⟨?_, ?_, ?_, ?_⟩
  · intro st
    rw [flushAfterPatchCache_eq]
    exact ⟨rfl, rfl⟩
  · intro st c h
    exact getSC2DataInfoAfterPatch_some h
  · intro st h
    exact getSC2DataInfoAfterPatch_none h
  · intro o mc st
    obtain ⟨tr, og, cap, fl⟩ := st
    cases og <;>
      simp [patchModToGame, flushAfterPatchCache, getSC2DataInfoAfterPatch,
        initSC2DataInfoCache]

/-- C4 witness: on a concrete state with a (stale) cached after-patch
snapshot, `getSC2DataInfoAfterPatch` returns the cached snapshot without
recapturing. -/

theorem afterPatchCache_lazy_recompute_witness :
    getSC2DataInfoAfterPatch sampleState
      = (emptySC2DataInfo "stale", initSC2DataInfoCache sampleState) :=
  afterPatchCache_lazy_recompute.2.1 sampleState (emptySC2DataInfo "stale") rfl

/-- C7: the origin snapshot is captured only when absent (first access);
`initSC2DataInfoCache`, `getSC2DataInfoCache` and
`earlyResetSC2DataInfoCache` keep an existing origin snapshot unchanged and
return that same snapshot; `patchModToGame` also preserves it; only
`cleanAllCacheAfterModLoadEnd` discards it. -/

theorem originCache_captured_once :
    (∀ st : MgrState, st.originSC2DataInfoCache = none →
        initSC2DataInfoCache st
          = { st with originSC2DataInfoCache := some (captureSnapshot st.tree) }) ∧
      (∀ (st : MgrState) (c : SC2DataInfo), st.originSC2DataInfoCache = some c →
        initSC2DataInfoCache st = st) ∧
      (∀ (st : MgrState) (c : SC2DataInfo), st.originSC2DataInfoCache = some c →
        getSC2DataInfoCache st = (some c, st)) ∧
      (∀ (st : MgrState) (c : SC2DataInfo), st.originSC2DataInfoCache = some c →
        (earlyResetSC2DataInfoCache st).originSC2DataInfoCache = some c) ∧
      (∀ (o : List String) (mc : List (String × ModInfo)) (st : MgrState)
          (c : SC2DataInfo), st.originSC2DataInfoCache = some c →
        ((patchModToGame o mc st).1).originSC2DataInfoCache = some c) ∧
      (∀ st : MgrState,
        (cleanAllCacheAfterModLoadEnd st).originSC2DataInfoCache = none) := by
  refine ⟨?_, ?_, ?_, ?_, ?_, ?_⟩
  · intro st h
    simp [initSC2DataInfoCache_eq, h]
  · intro st c h
    exact initSC2DataInfoCache_some h
  · intro st c h
    unfold getSC2DataInfoCache
    rw [initSC2DataInfoCache_some h]
    simp [h]
  · intro st c h
    unfold earlyResetSC2DataInfoCache
    rw [initSC2DataInfoCache_some h, flushAfterPatchCache_eq]
    simp [h]
  · intro o mc st c h
    obtain ⟨tr, og, cap, fl⟩ := st
    have hog : og = some c := h
    subst hog
    simp [patchModToGame, flushAfterPatchCache, getSC2DataInfoAfterPatch,
      initSC2DataInfoCache]
  · intro st
    rfl

/-- C7 witness: on a concrete state whose origin snapshot exists,
`getSC2DataInfoCache` returns that same snapshot and leaves the state
unchanged. -/

theorem originCache_captured_once_witness :
    getSC2DataInfoCache sampleStateOrigin
      = (some (emptySC2DataInfo "og"), sampleStateOrigin) :=
  originCache_captured_once.2.2.1 sampleStateOrigin (emptySC2DataInfo "og") rfl

/-- C6: when the `startInitOk` guard is already set — as it is, from the
first synchronous lines of `startInit`, for the whole time a first
invocation is in flight — a second invocation of the top-level entry point
returns with the state completely unchanged (no merge, no transform
application, no render-tree mutation), logging only the
"already start" notice; and every invocation leaves the guard set, so the
guard is in force before any suspension point of a running invocation. -/

theorem startInit_reentrant_noop (o : List String)
    (mc : List (String × ModInfo)) (st : MgrState)
    (h : st.startInitOk = true) :
    (startInit o mc st).1 = st ∧
      (startInit o mc st).2
        = [LogEntry.info "ModLoader ====== SC2DataManager startInit() already start" []] ∧
      ∀ st2 : MgrState, ((startInit o mc st2).1).startInitOk = true := by
  refine ⟨?_, ?_, ?_⟩
  · simp [startInit, h]
  · simp [startInit, h]
  · intro st2
    by_cases h2 : st2.startInitOk = true
    · simp [startInit, h2]
    · obtain ⟨tr, og, cap, fl⟩ := st2
      have hf : fl = false := by simpa using h2
      subst hf
      cases og <;>
        simp [startInit, patchModToGame, flushAfterPatchCache,
          getSC2DataInfoAfterPatch, initSC2DataInfoCache]

/-- C6 witness: with the guard set on a concrete state, a second call is a
no-op that only logs the notice. -/

theorem startInit_reentrant_noop_witness :
    (startInit [] [] sampleStateStarted).1 = sampleStateStarted ∧
      (startInit [] [] sampleStateStarted).2
        = [LogEntry.info "ModLoader ====== SC2DataManager startInit() already start" []] ∧
      ((startInit [] [] sampleState).1).startInitOk = true := by
  have H := startInit_reentrant_noop [] [] sampleStateStarted rfl
  exact ⟨H.1, H.2.1, H.2.2 sampleState⟩

/-- C5 counterexample: when the only patcher of mod `alphamod`
(file `patchX.json`) throws `boom`, the error-level entry emitted by the
catch block carries only the exception message — neither the mod name nor
the patch file name occurs anywhere in it, so the exception is not "logged
with the offending mod name and transform identity" in the error record
itself (they appear only in the surrounding progress entries). -/

theorem applyReplacePatcher_error_log_counterexample :
    errorEntries (applyReplacePatcher ["alphamod"] sampleModCache
        (emptySC2DataInfo "base")).2
      = [LogEntry.error
          "ModLoader ====== applyReplacePatcher() Replace Patch Error: "
          ["boom"]] ∧
      entryMentions
          (LogEntry.error
            "ModLoader ====== applyReplacePatcher() Replace Patch Error: "
            ["boom"]) "alphamod" = false ∧
      entryMentions
          (LogEntry.error
            "ModLoader ====== applyReplacePatcher() Replace Patch Error: "
            ["boom"]) "patchX.json" = false := by
  refine ⟨rfl, by decide, by decide⟩

/-- C5 (amended: the catch block logs the exception message, while the
offending mod name and transform identity appear in the progress entries
logged immediately before and after the attempt): a throwing transform is
caught at the call site — the data passes through unchanged and the step
logs the identity-bearing progress entries around the error entry — and
every remaining transform, of the same mod and of later mods, still runs;
the loop is total, so no exception propagates out of it. -/

theorem applyReplacePatcher_continue_on_error
    (modName : String) (rp : ReplacePatcher) (s : SC2DataInfo)
    (L : List LogEntry) (e : String)
    (h : rp.applyReplacePatcher s = .error e)
    (o1 o2 : List String) (mc : List (String × ModInfo)) (s0 : SC2DataInfo)
    (rps1 rps2 : List ReplacePatcher) (acc : SC2DataInfo × List LogEntry) :
    applyOnePatcher modName (s, L) rp =
        (s, L ++
          [LogEntry.info "ModLoader ====== applyReplacePatcher() Replace Patch"
              [modName, rp.patchFileName],
            LogEntry.error
              "ModLoader ====== applyReplacePatcher() Replace Patch Error: " [e],
            LogEntry.info "ModLoader ====== applyReplacePatcher() Replace Patch"
              [modName, rp.patchFileName]]) ∧
      applyReplacePatcher (o1 ++ o2) mc s0 =
        ((applyReplacePatcher o2 mc (applyReplacePatcher o1 mc s0).1).1,
          (applyReplacePatcher o1 mc s0).2
            ++ (applyReplacePatcher o2 mc (applyReplacePatcher o1 mc s0).1).2) ∧
      applyModPatchers modName (rps1 ++ rps2) acc
        = applyModPatchers modName rps2 (applyModPatchers modName rps1 acc) := by
  refine ⟨?_, applyReplacePatcher_append o1 o2 mc s0, ?_⟩
  · simp [applyOnePatcher, h]
  · unfold applyModPatchers
    rw [List.foldl_append]

/-- C5 witness: the theorem evaluated on a concrete throwing patcher. -/

theorem applyReplacePatcher_continue_on_error_witness :
    applyOnePatcher "alphamod" (emptySC2DataInfo "base", []) rpBoom =
        (emptySC2DataInfo "base", [] ++
          [LogEntry.info "ModLoader ====== applyReplacePatcher() Replace Patch"
              ["alphamod", "patchX.json"],
            LogEntry.error
              "ModLoader ====== applyReplacePatcher() Replace Patch Error: "
              ["boom"],
            LogEntry.info "ModLoader ====== applyReplacePatcher() Replace Patch"
              ["alphamod", "patchX.json"]]) ∧
      applyReplacePatcher (["alphamod"] ++ []) sampleModCache
          (emptySC2DataInfo "base") =
        ((applyReplacePatcher [] sampleModCache
            (applyReplacePatcher ["alphamod"] sampleModCache
              (emptySC2DataInfo "base")).1).1,
          (applyReplacePatcher ["alphamod"] sampleModCache
              (emptySC2DataInfo "base")).2
            ++ (applyReplacePatcher [] sampleModCache
                (applyReplacePatcher ["alphamod"] sampleModCache
                  (emptySC2DataInfo "base")).1).2) ∧
      applyModPatchers "alphamod" ([rpBoom] ++ [rpAddStyle])
          (emptySC2DataInfo "base", [])
        = applyModPatchers "alphamod" [rpAddStyle]
            (applyModPatchers "alphamod" [rpBoom] (emptySC2DataInfo "base", [])) :=
  applyReplacePatcher_continue_on_error "alphamod" rpBoom
    (emptySC2DataInfo "base") [] "boom" rfl ["alphamod"] [] sampleModCache
    (emptySC2DataInfo "base") [rpBoom] [rpAddStyle] (emptySC2DataInfo "base", [])

/-- C9: `addHook` and `addReturnModeHook` never fail — when the key is
already taken they only log an error and store the new hook in the old
hook's place: afterwards the key maps to the new hook, the table holds
exactly one entry for the key (whose value is the new hook, so any dispatch
walking the table reaches only the most recently registered hook for that
key), keys stay duplicate-free, and the log output is exactly the
conditional error entry. -/

theorem addHook_silent_replace (h : HtmlTagSrcHookState) (hookKey : String)
    (hk : HtmlTagSrcHookType) (rk : HtmlTagSrcReturnModeHookType)
    (hnd : (h.hookTable.map Prod.fst).Nodup)
    (hnd2 : (h.hookReturnModeTable.map Prod.fst).Nodup) :
    mapGet (addHook h hookKey hk).1.hookTable hookKey = some hk ∧
      ((addHook h hookKey hk).1.hookTable.filter
          (fun p => p.1 = hookKey)).map Prod.snd = [hk] ∧
      ((addHook h hookKey hk).1.hookTable.map Prod.fst).Nodup ∧
      (addHook h hookKey hk).2
        = (if mapHas h.hookTable hookKey then
            [LogEntry.error "[HtmlTagSrcHook] addHook: hookKey already exist!"
              [hookKey]]
          else []) ∧
      mapGet (addReturnModeHook h hookKey rk).1.hookReturnModeTable hookKey
        = some rk ∧
      ((addReturnModeHook h hookKey rk).1.hookReturnModeTable.filter
          (fun p => p.1 = hookKey)).map Prod.snd = [rk] ∧
      ((addReturnModeHook h hookKey rk).1.hookReturnModeTable.map Prod.fst).Nodup := by
  refine ⟨?_, ?_, ?_, rfl, ?_, ?_, ?_⟩
  · exact mapGet_mapSet_self h.hookTable hookKey hk
  · rw [show (addHook h hookKey hk).1.hookTable
        = mapSet h.hookTable hookKey hk from rfl]
    rw [filter_mapSet_self h.hookTable hookKey hk hnd]
    rfl
  · exact nodup_keys_mapSet h.hookTable hookKey hk hnd
  · exact mapGet_mapSet_self h.hookReturnModeTable hookKey rk
  · rw [show (addReturnModeHook h hookKey rk).1.hookReturnModeTable
        = mapSet h.hookReturnModeTable hookKey rk from rfl]
    rw [filter_mapSet_self h.hookReturnModeTable hookKey rk hnd2]
    rfl
  · exact nodup_keys_mapSet h.hookReturnModeTable hookKey rk hnd2

/-- C9 witness: registering twice under the same key on a concrete table. -/

theorem addHook_silent_replace_witness :
    mapGet (addHook (addHook emptyHookState "k1" plainDeclineHook).1 "k1"
        plainThrowHook).1.hookTable "k1" = some plainThrowHook ∧
      ((addHook (addHook emptyHookState "k1" plainDeclineHook).1 "k1"
          plainThrowHook).1.hookTable.filter
          (fun p => p.1 = "k1")).map Prod.snd = [plainThrowHook] ∧
      (addHook (addHook emptyHookState "k1" plainDeclineHook).1 "k1"
          plainThrowHook).2
        = [LogEntry.error "[HtmlTagSrcHook] addHook: hookKey already exist!"
            ["k1"]] := by
  have H := addHook_silent_replace (addHook emptyHookState "k1" plainDeclineHook).1
    "k1" plainThrowHook rmThrowHook (by simp [addHook, emptyHookState, mapSet])
    (by simp [addHook, emptyHookState, mapSet])
  refine ⟨H.1, H.2.1, ?_⟩
  rw [H.2.2.2.1]
  rfl

/-- C10: for an element whose saved `ML-<field>` attribute is non-empty,
when every return-mode hook and every plain hook declines or throws,
`doHook` answers `false`, restores the `<field>` attribute from the saved
value and sets `ML-src_replace_failed` to `"1"`; a throwing return-mode
hook is skipped — it contributes one error log entry and the iteration
continues with the rest of the table — and the loop is a total function, so
no exception escapes `doHook`. (The field name is assumed distinct from the
reserved failure-marker attribute, which the code writes afterwards.) -/

theorem doHook_all_decline_restores (h : HtmlTagSrcHookState)
    (el : HtmlElement) (field s : String)
    (hattr : el.getAttribute ("ML-" ++ field) = some s)
    (hs : ¬ s = "")
    (hfield : ¬ field = "ML-src_replace_failed")
    (hrm : ∀ p ∈ h.hookReturnModeTable,
      (∃ e, p.2 s = .error e) ∨ (∃ b, p.2 s = .ok (false, b)))
    (hpl : ∀ p ∈ h.hookTable,
      (∃ e, p.2 el s field = .error e) ∨ p.2 el s field = .ok false) :
    (doHook h el field).1 = false ∧
      ((doHook h el field).2.1).getAttribute field = some s ∧
      ((doHook h el field).2.1).getAttribute "ML-src_replace_failed"
        = some "1" ∧
      (∀ (k : String) (hook : HtmlTagSrcReturnModeHookType)
          (rest : List (String × HtmlTagSrcReturnModeHookType)) (e : String),
        hook s = .error e →
        runReturnModeHooks ((k, hook) :: rest) s =
          ((runReturnModeHooks rest s).1,
            LogEntry.error "[HtmlTagSrcHook] doHookCallback: call hookKey error"
              [k, e] :: (runReturnModeHooks rest s).2)) := by
  have hrm1 := runReturnModeHooks_decline h.hookReturnModeTable s hrm
  have hpl1 := runPlainHooks_decline h.hookTable el s field hpl
  have hdo : doHook h el field =
      (false,
        (el.setAttribute "ML-src_replace_failed" "1").setAttribute field s,
        (runReturnModeHooks h.hookReturnModeTable s).2
          ++ (runPlainHooks h.hookTable el s field).2) := by
    unfold doHook
    rw [hattr]
    simp only [if_neg hs]
    rcases hR : runReturnModeHooks h.hookReturnModeTable s with ⟨r, logs1⟩
    rw [hR] at hrm1
    simp only at hrm1
    subst hrm1
    rcases hP : runPlainHooks h.hookTable el s field with ⟨b, logs2⟩
    rw [hP] at hpl1
    simp only at hpl1
    subst hpl1
    rfl
  refine ⟨?_, ?_, ?_, ?_⟩
  · rw [hdo]
  · rw [hdo]
    exact mapGet_mapSet_self _ field s
  · rw [hdo]
    show mapGet (mapSet (mapSet el.attrs "ML-src_replace_failed" "1") field s)
      "ML-src_replace_failed" = some "1"
    rw [mapGet_mapSet_ne _ field "ML-src_replace_failed" s hfield]
    exact mapGet_mapSet_self _ _ _
  · intro k hook rest e he
    conv_lhs => unfold runReturnModeHooks
    rw [he]

/-- C10 witness: a concrete element with `ML-src` set, one throwing and one
declining return-mode hook, one throwing and one declining plain hook. -/

theorem doHook_all_decline_restores_witness :
    (doHook sampleHookState sampleEl "src").1 = false ∧
      ((doHook sampleHookState sampleEl "src").2.1).getAttribute "src"
        = some "img/a.png" ∧
      ((doHook sampleHookState sampleEl "src").2.1).getAttribute
          "ML-src_replace_failed" = some "1" ∧
      runReturnModeHooks [("k1", rmThrowHook), ("k2", rmDeclineHook)]
          "img/a.png" =
        ((runReturnModeHooks [("k2", rmDeclineHook)] "img/a.png").1,
          LogEntry.error "[HtmlTagSrcHook] doHookCallback: call hookKey error"
            ["k1", "rm-go-wrong"]
            :: (runReturnModeHooks [("k2", rmDeclineHook)] "img/a.png").2) := by
  have H := doHook_all_decline_restores sampleHookState sampleEl "src"
    "img/a.png" rfl (by decide) (by decide)
    (by
      intro p hp
      rcases List.mem_cons.mp hp with h1 | hp
      · subst h1
        exact Or.inl ⟨"rm-go-wrong", rfl⟩
      · rcases List.mem_cons.mp hp with h1 | hp
        · subst h1
          exact Or.inr ⟨"", rfl⟩
        · simp at hp)
    (by
      intro p hp
      rcases List.mem_cons.mp hp with h1 | hp
      · subst h1
        exact Or.inl ⟨"pl-go-wrong", rfl⟩
      · rcases List.mem_cons.mp hp with h1 | hp
        · subst h1
          exact Or.inr rfl
        · simp at hp)
  exact ⟨H.1, H.2.1, H.2.2.1,
    H.2.2.2 "k1" rmThrowHook [("k2", rmDeclineHook)] "rm-go-wrong" rfl⟩
